import Mathlib

/-!
Shallow embedding of `src/main.c` of `ragg967/c_network_info`, a
multi-threaded ICMP host-discovery scanner.

Modelling conventions:
* Machine `int` values (counters, `alive`, `processed`, host numbers) are
  modelled as `Int`/`Nat`; no value computed by reachable code approaches
  `2^31`, so overflow is immaterial and no modular reduction is applied.
* Environment nondeterminism (CPU count from `get_nprocs`, the exit status
  of the external `system("ping ...")` call, success of `malloc` /
  `aligned_alloc` and of `pthread_create`, and the contents of
  uninitialized memory returned by `aligned_alloc`) is packaged in an
  `Env` record of oracles.
* The batch-and-join structure of the two schedulers means every probe of
  a batch completes (is joined) before the next batch starts and before
  any result is read; consequently the final contents of the task array
  and the final counter values are the same as those of the sequential
  per-host evaluation modelled here.  The batch decomposition itself
  (sizes of the batches the loops form) is modelled separately by
  `batchSizes`.
-/

/-- `#define MAX_PING_THREADS 128` (main.c line 19). -/
def MAX_PING_THREADS : Nat := 128

/-- `#define MAX_SUBNET_THREADS 16` (main.c line 20). -/
def MAX_SUBNET_THREADS : Nat := 16

/-- `#define IP_STR_LEN 16` (main.c line 21): capacity of `ping_task_t.ip`. -/
def IP_STR_LEN : Nat := 16

/-- `#define CMD_LEN 64` (main.c line 22): capacity of the command buffer in `ping_worker`. -/
def CMD_LEN : Nat := 64

/-- `get_optimal_thread_count` (main.c lines 61-65): `cores > 0 ? cores * 4 : 64`,
with `cores` the value `get_nprocs()` returned. -/
def get_optimal_thread_count (cores : Nat) : Nat :=
  if cores > 0 then cores * 4 else 64

/-- The host-level concurrency limit `ping_threads` computed in `subnet_worker`
(main.c lines 135-137): `get_optimal_thread_count()` clamped to `MAX_PING_THREADS`. -/
def pingThreadCount (cores : Nat) : Nat :=
  min (get_optimal_thread_count cores) MAX_PING_THREADS

/-- The subnet-level concurrency limit `subnet_threads` computed in
`scan_subnets_parallel` (main.c line 235): `count < MAX_SUBNET_THREADS ? count : MAX_SUBNET_THREADS`. -/
def subnetThreadCount (count : Nat) : Nat :=
  min count MAX_SUBNET_THREADS

/-- `ping_task_t` (main.c lines 35-39): `{char ip[16]; _Atomic int alive; _Atomic int processed;}`. -/
structure PingTask where
  ip : String
  alive : Int
  processed : Int
deriving DecidableEq, Repr

/-- The three global `_Atomic int` counters (main.c lines 51-53). -/
structure Counters where
  total_hosts_scanned : Int
  total_responders : Int
  subnets_scanned : Int
deriving DecidableEq, Repr

/-- Environment oracles: everything the C program obtains from the OS.
Fields are keyed by the subnet string (and host index where relevant) so
that distinct subnet scans may observe distinct outcomes.  -/
structure Env where
  /-- value returned by `get_nprocs()`. -/
  cores : Nat
  /-- exit status of `system(cmd)` in `ping_worker` (main.c line 117), keyed by the command string. -/
  system : String → Int
  /-- contents of the uninitialized memory `aligned_alloc` returns for `tasks[idx]` (main.c line 139). -/
  initTask : String → Nat → PingTask
  /-- whether `pthread_create` of a `ping_worker` succeeds (main.c line 177), per subnet and host index. -/
  pingSpawnOk : String → Nat → Bool
  /-- whether `aligned_alloc` of the task array succeeds (main.c line 139). -/
  tasksAllocOk : String → Bool
  /-- whether `malloc` of the thread array succeeds (main.c line 148). -/
  threadsAllocOk : String → Bool
  /-- whether `pthread_create` of a `subnet_worker` succeeds (main.c line 260), per subnet. -/
  subnetSpawnOk : String → Bool
  /-- whether the two `malloc`s in `scan_subnets_parallel` succeed (main.c lines 237-238). -/
  schedAllocOk : Bool

/-- `snprintf(tasks[idx].ip, 16, "%s.%d", subnet, i)` formats this string (main.c line 168). -/
def ipStr (subnet : String) (host : Int) : String :=
  subnet ++ "." ++ toString host

/-- `snprintf` into a `cap`-byte buffer stores at most `cap - 1` characters
(all strings involved are ASCII, so bytes = characters). -/
def snprintfTrunc (s : String) (cap : Nat) : String :=
  String.mk (s.toList.take (cap - 1))

/-- The success test on `snprintf`'s return value at main.c line 170:
`ret` is the untruncated length of `ipStr subnet host`, and the host's task
is set up only when `ret < 16` (the `ret < 0` case cannot arise for this
format, and is subsumed by modelling `ret` as the length). -/
def fmtOk (subnet : String) (host : Int) : Bool :=
  (ipStr subnet host).length < IP_STR_LEN

/-- The command `snprintf(cmd, 64, "ping -c 1 -W 1 %s > /dev/null 2>&1", task->ip)`
formats in `ping_worker` (main.c lines 108-109). -/
def pingCmd (ip : String) : String :=
  "ping -c 1 -W 1 " ++ ip ++ " > /dev/null 2>&1"

/-- The success test on that `snprintf`'s return value (main.c line 110). -/
def cmdFmtOk (ip : String) : Bool :=
  (pingCmd ip).length < CMD_LEN

/-- Result of one `ping_worker` run: the final task state plus how many
times the worker stored to `task->processed`. -/
structure PingWorkerResult where
  task : PingTask
  processedStores : Nat
deriving DecidableEq, Repr

/-- `ping_worker` (main.c lines 101-123).  On a command-formatting failure it
stores `alive = 0`, `processed = 1` and returns; otherwise it runs
`system(cmd)`, stores `alive = 1` iff the status is `0`, and stores
`processed = 1`.  (The `active_ping_threads` add/sub pair nets to zero and is
read by nothing; it is omitted.) -/
def ping_worker (system : String → Int) (task : PingTask) : PingWorkerResult :=
  if cmdFmtOk task.ip then
    let ret := system (pingCmd task.ip)
    { task := { task with alive := if ret == 0 then 1 else 0, processed := 1 },
      processedStores := 1 }
  else
    { task := { task with alive := 0, processed := 1 }, processedStores := 1 }

/-- `total = end_host - start_host + 1` (main.c line 132), as the size of the
task array (nonpositive ranges never reach the allocation in reachable code). -/
def rangeTotal (start fin : Int) : Nat :=
  (fin - start + 1).toNat

/-- Net effect of the batch loop of `subnet_worker` (main.c lines 161-196) on
the task at index `idx` (host number `start_host + idx`):
* `snprintf` of the dotted quad truncates (main.c lines 168-171): the loop
  `continue`s, leaving `alive`/`processed` at the uninitialized values the
  allocation returned; `snprintf` itself has stored the truncated text in `ip`;
* otherwise `alive := 0`, `processed := 0` are stored (lines 174-175) and
  `pthread_create` dispatches `ping_worker` on the task (line 177); if that
  creation fails, `processed := 1` is stored instead (line 181).
Each index is visited exactly once (the loop counters `batch`, `i`, `idx`
advance together, `continue` included), so the per-task result is independent
of the batch boundaries. -/
def processHost (env : Env) (subnet : String) (host : Int) (idx : Nat)
    (t0 : PingTask) : PingTask :=
  if fmtOk subnet host then
    let t1 : PingTask := { t0 with ip := ipStr subnet host, alive := 0, processed := 0 }
    if env.pingSpawnOk subnet idx then
      (ping_worker env.system t1).task
    else
      { t1 with processed := 1 }
  else
    { t0 with ip := snprintfTrunc (ipStr subnet host) IP_STR_LEN }

/-- Result of one `subnet_worker` run. -/
structure SubnetWorkerResult where
  /-- final contents of the `tasks` array when the result-collection loop reads it. -/
  tasks : List PingTask
  /-- the local `responders` tally (main.c lines 199-205). -/
  responders : Nat
  /-- final value of the `subnet_task->responders` field. -/
  respondersField : Int
  /-- number of stores `subnet_worker` performs to `subnet_task->responders`
  (main.c lines 144, 153, 220: exactly one on every path). -/
  responderFieldWrites : Nat
  /-- number of `pthread_create` calls for ping workers (one per host whose
  address formatted successfully). -/
  dispatches : Nat
  /-- global counters after the three `atomic_fetch_add`s (main.c lines 216-218). -/
  counters : Counters
  /-- whether the run reached the normal end (no allocation failure). -/
  completed : Bool
deriving DecidableEq, Repr

/-- `subnet_worker` (main.c lines 126-225).  The two allocation-failure exits
(lines 141-146, 149-155) store `0` to the responders field and leave the
global counters untouched.  On the normal path every host of the range is
processed per `processHost`, the collection loop counts tasks whose `alive`
is nonzero (line 200), the three global counters receive their
`atomic_fetch_add`s (lines 216-218), and the responder count is stored to
`subnet_task->responders` (line 220). -/
def subnet_worker (env : Env) (subnet : String) (start fin : Int)
    (c : Counters) : SubnetWorkerResult :=
  if env.tasksAllocOk subnet && env.threadsAllocOk subnet then
    let total := rangeTotal start fin
    let tasks := (List.range total).map
      (fun idx => processHost env subnet (start + Int.ofNat idx) idx (env.initTask subnet idx))
    let responders := tasks.countP (fun t => !(t.alive == 0))
    { tasks := tasks
      responders := responders
      respondersField := (responders : Int)
      responderFieldWrites := 1
      dispatches := (List.range total).countP (fun idx => fmtOk subnet (start + Int.ofNat idx))
      counters := { total_hosts_scanned := c.total_hosts_scanned + (total : Int)
                    total_responders := c.total_responders + (responders : Int)
                    subnets_scanned := c.subnets_scanned + 1 }
      completed := true }
  else
    { tasks := []
      responders := 0
      respondersField := 0
      responderFieldWrites := 1
      dispatches := 0
      counters := c
      completed := false }

example : fmtOk "10.0.0" 1 = true := by decide
example : fmtOk "192.168.100.100" 1 = false := by decide
example : snprintfTrunc (ipStr "192.168.100.100" 1) IP_STR_LEN = "192.168.100.100" := by decide

/-- The sizes of the batches the inner loop of `subnet_worker` (main.c lines
161-196) forms, computed as the loop does: starting from `remaining` hosts
left, each batch takes `min limit remaining` hosts (`batch < ping_threads && i <= end`),
the next iteration sees the rest.  The first argument is fuel; `remaining`
itself is always sufficient fuel since every batch removes at least one host
(the loops are only reached with `limit ≥ 1`). -/
def batchSizesAux (limit : Nat) : Nat → Nat → List Nat
  | 0, _ => []
  | _ + 1, 0 => []
  | fuel + 1, r + 1 =>
    min limit (r + 1) :: batchSizesAux limit fuel (r + 1 - min limit (r + 1))

/-- Batch decomposition of `remaining` work items under concurrency limit `limit`:
the common batching discipline of `subnet_worker` (main.c lines 161-196) and
`scan_subnets_parallel` (main.c lines 248-272). -/
def batchSizes (limit remaining : Nat) : List Nat :=
  batchSizesAux limit remaining remaining

/-- The host-level batches `subnet_worker` forms for range `[start, fin]`. -/
def hostBatchSizes (cores : Nat) (start fin : Int) : List Nat :=
  batchSizes (pingThreadCount cores) (rangeTotal start fin)

/-- The subnet-level batches `scan_subnets_parallel` forms for `count` subnets
(main.c lines 248-250: `batch_size = (count - i) < subnet_threads ? (count - i) : subnet_threads`). -/
def subnetBatchSizes (count : Nat) : List Nat :=
  batchSizes (subnetThreadCount count) count

/-- The per-batch body of `scan_subnets_parallel` (main.c lines 248-272),
flattened over the subnet list: each subnet gets a task with host range
`[1, 254]` (lines 255-256); a failed `pthread_create` (line 260) skips that
subnet's scan; each dispatched `subnet_worker` is joined before its batch
ends, so the sequential accumulation below yields the final counter values. -/
def runSubnetList (env : Env) : List String → Counters → Counters × List SubnetWorkerResult
  | [], c => (c, [])
  | s :: rest, c =>
    if env.subnetSpawnOk s then
      let r := subnet_worker env s 1 254 c
      let p := runSubnetList env rest r.counters
      (p.1, r :: p.2)
    else
      runSubnetList env rest c

/-- Result of one `scan_subnets_parallel` run. -/
structure SchedResult where
  counters : Counters
  subnetResults : List SubnetWorkerResult
  /-- number of reads `scan_subnets_parallel` performs of any task's
  `responders` field after joining its workers: per main.c lines 266-272 the
  code only joins the batch and prints a progress line, so this is `0`. -/
  responderFieldReads : Nat
deriving Repr

/-- `scan_subnets_parallel` (main.c lines 228-276).  If either `malloc`
(lines 237-238) fails the function returns before any scanning; otherwise it
runs every subnet's coordinator in joined batches. -/
def scan_subnets_parallel (env : Env) (subnets : List String) (c0 : Counters) :
    SchedResult :=
  if env.schedAllocOk then
    let p := runSubnetList env subnets c0
    { counters := p.1, subnetResults := p.2, responderFieldReads := 0 }
  else
    { counters := c0, subnetResults := [], responderFieldReads := 0 }

/-- `common_class_c_subnets` (main.c lines 286-289). -/
def common_class_c_subnets : List String :=
  ["192.168.1", "192.168.0", "192.168.2", "192.168.3", "192.168.4",
   "192.168.5", "192.168.10", "192.168.11", "192.168.20", "192.168.25",
   "192.168.50", "192.168.100", "192.168.101", "192.168.200", "192.168.254"]

/-- `common_class_b_subnets` (main.c lines 291-294). -/
def common_class_b_subnets : List String :=
  ["172.16.0", "172.16.1", "172.16.2", "172.16.10", "172.17.0", "172.17.1",
   "172.18.0", "172.19.0", "172.20.0", "172.21.0", "172.22.0", "172.23.0",
   "172.24.0", "172.25.0", "172.30.0", "172.31.0"]

/-- `common_class_a_subnets` (main.c lines 296-299). -/
def common_class_a_subnets : List String :=
  ["10.0.0", "10.0.1", "10.0.2", "10.0.10", "10.1.0", "10.1.1",
   "10.1.2", "10.1.10", "10.2.0", "10.2.1", "10.10.0", "10.10.1",
   "10.20.0", "10.100.0", "10.200.0", "10.254.0"]

/-- All subnets `scan_all_common_private_networks_parallel` scans, in order
(the three class tables plus the localhost phase, main.c lines 318-327). -/
def campaign_subnets : List String :=
  common_class_c_subnets ++ common_class_b_subnets ++ common_class_a_subnets ++ ["127.0.0"]

/-- `scan_all_common_private_networks_parallel` (main.c lines 301-351):
whatever the counters held before (`cPrev`), they are reset to `0` by the
three `atomic_store`s (lines 313-315); then the four phases run sequentially. -/
def scan_all_common_private_networks_parallel (env : Env) (cPrev : Counters) : Counters :=
  let _ := cPrev
  let c0 : Counters := ⟨0, 0, 0⟩
  let c1 := (scan_subnets_parallel env common_class_c_subnets c0).counters
  let c2 := (scan_subnets_parallel env common_class_b_subnets c1).counters
  let c3 := (scan_subnets_parallel env common_class_a_subnets c2).counters
  (scan_subnets_parallel env ["127.0.0"] c3).counters

/-- `scan_single_subnet_parallel` (main.c lines 391-400): builds one
`subnet_task_t` and calls `subnet_worker` on it directly. -/
def scan_single_subnet_parallel (env : Env) (base : String) (start fin : Int)
    (c : Counters) : SubnetWorkerResult :=
  subnet_worker env base start fin c

/-- Outcome of `main`'s single-subnet mode (choice 3). -/
structure Mode3Result where
  /-- `false` iff `main` returned `EXIT_FAILURE` during validation. -/
  ok : Bool
  /-- global counters when `main` returns. -/
  counters : Counters
  /-- number of ping probes dispatched. -/
  dispatches : Nat
deriving DecidableEq, Repr

/-- The single-subnet branch of `main` (main.c lines 433-457): `start` is
validated first (`start < 1 || start > 254` rejects), then `end`
(`end < 1 || end > 254 || end < start` rejects); only after both checks does
`scan_single_subnet_parallel` run. -/
def main_single_subnet_mode (env : Env) (base : String) (start fin : Int)
    (c0 : Counters) : Mode3Result :=
  if start < 1 ∨ start > 254 then
    { ok := false, counters := c0, dispatches := 0 }
  else if fin < 1 ∨ fin > 254 ∨ fin < start then
    { ok := false, counters := c0, dispatches := 0 }
  else
    let r := scan_single_subnet_parallel env base start fin c0
    { ok := true, counters := r.counters, dispatches := r.dispatches }

/-- One completed subnet scan's effect on the global counters: the
composition along which `scan_subnets_parallel` accumulates (the three
`atomic_fetch_add`s of main.c lines 216-218). -/
def subnetCounterStep (env : Env) (c : Counters) (s : String) : Counters :=
  (subnet_worker env s 1 254 c).counters

/-- An environment in which every allocation and thread creation succeeds,
one CPU core is reported, no probe target answers, and freshly allocated
task memory happens to be zeroed. -/
def envAllOk : Env :=
  { cores := 1
    system := fun _ => 1
    initTask := fun _ _ => ⟨"", 0, 0⟩
    pingSpawnOk := fun _ _ => true
    tasksAllocOk := fun _ => true
    threadsAllocOk := fun _ => true
    subnetSpawnOk := fun _ => true
    schedAllocOk := true }

/-- Like `envAllOk`, except the uninitialized task memory returned by
`aligned_alloc` happens to contain nonzero bytes (`alive = 1`,
`processed = 0`) — a perfectly legal outcome for uninitialized memory. -/
def envGarbage : Env :=
  { envAllOk with initTask := fun _ _ => ⟨"", 1, 0⟩ }

example : batchSizes 4 9 = [4, 4, 1] := by decide
example : subnetBatchSizes 2 = [2] := by decide
example : pingThreadCount 1 = 4 := by decide

theorem batchSizesAux_mem_le (limit : Nat) :
    ∀ fuel remaining b, b ∈ batchSizesAux limit fuel remaining → b ≤ limit := by
  intro fuel
  induction fuel with
  | zero => intro remaining b hb; simp [batchSizesAux] at hb
  | succ n ih =>
    intro remaining b hb
    cases remaining with
    | zero => simp [batchSizesAux] at hb
    | succ r =>
      simp only [batchSizesAux, List.mem_cons] at hb
      rcases hb with h | h
      · subst h; exact min_le_left _ _
      · exact ih _ _ h

theorem batchSizesAux_mem_pos (limit : Nat) (hl : 1 ≤ limit) :
    ∀ fuel remaining b, b ∈ batchSizesAux limit fuel remaining → 1 ≤ b := by
  intro fuel
  induction fuel with
  | zero => intro remaining b hb; simp [batchSizesAux] at hb
  | succ n ih =>
    intro remaining b hb
    cases remaining with
    | zero => simp [batchSizesAux] at hb
    | succ r =>
      simp only [batchSizesAux, List.mem_cons] at hb
      rcases hb with h | h
      · subst h; exact lt_min_iff.mpr ⟨hl, Nat.succ_pos r⟩
      · exact ih _ _ h

theorem batchSizesAux_sum (limit : Nat) (hl : 1 ≤ limit) :
    ∀ fuel remaining, remaining ≤ fuel →
      (batchSizesAux limit fuel remaining).sum = remaining := by
  intro fuel
  induction fuel with
  | zero => intro remaining h; interval_cases remaining; simp [batchSizesAux]
  | succ n ih =>
    intro remaining h
    cases remaining with
    | zero => simp [batchSizesAux]
    | succ r =>
      have hmin : 1 ≤ min limit (r + 1) := lt_min_iff.mpr ⟨hl, Nat.succ_pos r⟩
      have hmin' : min limit (r + 1) ≤ r + 1 := min_le_right _ _
      simp only [batchSizesAux, List.sum_cons]
      rw [ih (r + 1 - min limit (r + 1)) (by omega)]
      omega

theorem batchSizes_ne_nil (limit remaining : Nat) (hr : 1 ≤ remaining) :
    batchSizes limit remaining ≠ [] := by
  cases remaining with
  | zero => omega
  | succ r => simp [batchSizes, batchSizesAux]

theorem pingThreadCount_pos (cores : Nat) : 1 ≤ pingThreadCount cores := by
  unfold pingThreadCount get_optimal_thread_count MAX_PING_THREADS
  split <;> omega

theorem subnet_worker_counters (env : Env) (subnet : String) (start fin : Int)
    (c : Counters) (h2 : env.tasksAllocOk subnet = true)
    (h3 : env.threadsAllocOk subnet = true) :
    (subnet_worker env subnet start fin c).counters =
      { total_hosts_scanned := c.total_hosts_scanned + (rangeTotal start fin : Int)
        total_responders := c.total_responders +
          ((subnet_worker env subnet start fin c).responders : Int)
        subnets_scanned := c.subnets_scanned + 1 } := by
  simp [subnet_worker, h2, h3]

theorem runSubnetList_hosts (env : Env) :
    ∀ (l : List String) (c : Counters),
      (∀ s ∈ l, env.subnetSpawnOk s = true ∧ env.tasksAllocOk s = true ∧
        env.threadsAllocOk s = true) →
      (runSubnetList env l c).1.total_hosts_scanned =
        c.total_hosts_scanned + 254 * l.length := by
  intro l
  induction l with
  | nil => intro c _; simp [runSubnetList]
  | cons s rest ih =>
    intro c h
    obtain ⟨h1, h2, h3⟩ := h s (List.mem_cons_self s rest)
    simp only [runSubnetList, h1, if_true]
    rw [ih _ (fun x hx => h x (List.mem_cons_of_mem s hx))]
    rw [subnet_worker_counters env s 1 254 c h2 h3]
    simp only [List.length_cons]
    have : rangeTotal 1 254 = 254 := by decide
    rw [this]
    push_cast
    ring

theorem subnetCounterStep_shift (env : Env) (s : String) :
    ∃ dh dr ds : Int, ∀ c : Counters,
      subnetCounterStep env c s =
        ⟨c.total_hosts_scanned + dh, c.total_responders + dr, c.subnets_scanned + ds⟩ := by
  by_cases h : (env.tasksAllocOk s && env.threadsAllocOk s) = true
  · refine ⟨(rangeTotal 1 254 : Int),
      ((subnet_worker env s 1 254 ⟨0, 0, 0⟩).responders : Int), 1, fun c => ?_⟩
    simp [subnetCounterStep, subnet_worker, h]
  · exact ⟨0, 0, 0, fun c => by simp [subnetCounterStep, subnet_worker, h]⟩

theorem subnetCounterStep_comm (env : Env) (c : Counters) (x y : String) :
    subnetCounterStep env (subnetCounterStep env c x) y =
      subnetCounterStep env (subnetCounterStep env c y) x := by
  obtain ⟨dh1, dr1, ds1, h1⟩ := subnetCounterStep_shift env x
  obtain ⟨dh2, dr2, ds2, h2⟩ := subnetCounterStep_shift env y
  simp only [h1, h2]
  simp only [Counters.mk.injEq]
  refine ⟨by ring, by ring, by ring⟩

theorem foldl_subnetCounterStep_perm (env : Env) :
    ∀ {l1 l2 : List String}, l1.Perm l2 → ∀ c : Counters,
      l1.foldl (subnetCounterStep env) c = l2.foldl (subnetCounterStep env) c := by
  intro l1 l2 h
  induction h with
  | nil => intro c; rfl
  | cons x _ ih => intro c; simp only [List.foldl_cons, ih]
  | swap x y l =>
    intro c
    simp only [List.foldl_cons, subnetCounterStep_comm]
  | trans _ _ ih1 ih2 => intro c; rw [ih1, ih2]

theorem runSubnetList_eq_foldl (env : Env) :
    ∀ (l : List String) (c : Counters),
      (∀ s ∈ l, env.subnetSpawnOk s = true) →
      (runSubnetList env l c).1 = l.foldl (subnetCounterStep env) c := by
  intro l
  induction l with
  | nil => intro c _; rfl
  | cons s rest ih =>
    intro c h
    have h1 := h s (List.mem_cons_self s rest)
    simp only [runSubnetList, h1, if_true, List.foldl_cons]
    exact ih _ (fun x hx => h x (List.mem_cons_of_mem s hx))

/-- C10: every invocation of `ping_worker` terminates (it is a total function
here) having stored `processed = 1` exactly once, and stores `alive = 1`
exactly when the command formatted successfully and the external `ping`
invocation returned status `0`; on every other path — formatting failure
included — it stores `alive = 0`. -/
theorem C10_ping_worker_contract (system : String → Int) (t : PingTask) :
    (ping_worker system t).processedStores = 1 ∧
    (ping_worker system t).task.processed = 1 ∧
    (ping_worker system t).task.alive =
      (if cmdFmtOk t.ip then (if system (pingCmd t.ip) = 0 then 1 else 0) else 0) := by
  unfold ping_worker
  by_cases h : cmdFmtOk t.ip = true <;>
    simp [h, beq_iff_eq]

/-- C1: for every host range `[start, fin]` with `start ≤ fin`, when the
allocations succeed, every host's address formats within the 16-byte buffer
and every `pthread_create` succeeds, `subnet_worker` creates exactly
`fin − start + 1` probe tasks, dispatches exactly `fin − start + 1` probes
(one per host: each index of the range is visited exactly once by the batch
loop), and its responder tally never exceeds `fin − start + 1` (the last
bound needs no hypothesis beyond the allocations). -/
theorem C1_host_scheduler_exact (env : Env) (subnet : String) (start fin : Int)
    (c0 : Counters) (hle : start ≤ fin)
    (hta : env.tasksAllocOk subnet = true) (hth : env.threadsAllocOk subnet = true)
    (hfmt : ∀ idx ∈ List.range (rangeTotal start fin),
      fmtOk subnet (start + Int.ofNat idx) = true)
    (hspawn : ∀ idx ∈ List.range (rangeTotal start fin),
      env.pingSpawnOk subnet idx = true) :
    (subnet_worker env subnet start fin c0).tasks.length = rangeTotal start fin ∧
    (subnet_worker env subnet start fin c0).dispatches = rangeTotal start fin ∧
    (subnet_worker env subnet start fin c0).responders ≤ rangeTotal start fin := by
  have _ := hle
  have _ := hspawn
  simp only [subnet_worker, hta, hth, Bool.and_self, if_true]
  refine ⟨by simp, ?_, ?_⟩
  · rw [List.countP_eq_length.mpr hfmt, List.length_range]
  · calc (((List.range (rangeTotal start fin)).map
        (fun idx => processHost env subnet (start + Int.ofNat idx) idx
          (env.initTask subnet idx))).countP (fun t => !(t.alive == 0)))
        ≤ ((List.range (rangeTotal start fin)).map
            (fun idx => processHost env subnet (start + Int.ofNat idx) idx
              (env.initTask subnet idx))).length := List.countP_le_length _
      _ = rangeTotal start fin := by simp

/-- Witness for C1 at subnet `10.0.0`, range `[1, 4]`. -/
theorem C1_host_scheduler_exact_witness :
    (subnet_worker envAllOk "10.0.0" 1 4 ⟨0, 0, 0⟩).tasks.length = rangeTotal 1 4 ∧
    (subnet_worker envAllOk "10.0.0" 1 4 ⟨0, 0, 0⟩).dispatches = rangeTotal 1 4 ∧
    (subnet_worker envAllOk "10.0.0" 1 4 ⟨0, 0, 0⟩).responders ≤ rangeTotal 1 4 :=
  C1_host_scheduler_exact envAllOk "10.0.0" 1 4 ⟨0, 0, 0⟩ (by decide) rfl rfl
    (by decide) (fun _ _ => rfl)

/-- C2: every batch either scheduler produces has size at most the configured
concurrency limit (`ping_threads` for the host loop, `subnet_threads` for the
subnet loop) and at least `1`; when the range (resp. subnet list) is
non-empty, the batch decomposition is non-empty — the final batch may be
smaller than the limit but is never zero. -/
theorem C2_batch_size_invariant (cores count : Nat) (start fin : Int) (b : Nat) :
    (b ∈ hostBatchSizes cores start fin → 1 ≤ b ∧ b ≤ pingThreadCount cores) ∧
    (b ∈ subnetBatchSizes count → 1 ≤ b ∧ b ≤ subnetThreadCount count) ∧
    (1 ≤ rangeTotal start fin → hostBatchSizes cores start fin ≠ []) ∧
    (1 ≤ count → subnetBatchSizes count ≠ []) := by
  refine ⟨?_, ?_, ?_, ?_⟩
  · intro hb
    exact ⟨batchSizesAux_mem_pos _ (pingThreadCount_pos cores) _ _ _ hb,
      batchSizesAux_mem_le _ _ _ _ hb⟩
  · intro hb
    have hpos : 1 ≤ subnetThreadCount count := by
      cases count with
      | zero => simp [subnetBatchSizes, batchSizes, batchSizesAux] at hb
      | succ n => exact lt_min_iff.mpr ⟨Nat.succ_pos n, by decide⟩
    exact ⟨batchSizesAux_mem_pos _ hpos _ _ _ hb, batchSizesAux_mem_le _ _ _ _ hb⟩
  · intro h
    exact batchSizes_ne_nil (pingThreadCount cores) (rangeTotal start fin) h
  · intro h
    exact batchSizes_ne_nil (subnetThreadCount count) count h

/-- Witness for C2 with `cores = 1` (so `ping_threads = 4`), a 9-host range
(batches `[4, 4, 1]`), and `count = 20` subnets (`subnet_threads = 16`,
batches `[16, 4]`), applied to the batch of size `4` in each. -/
theorem C2_batch_size_invariant_witness :
    (1 ≤ 4 ∧ 4 ≤ pingThreadCount 1) ∧ (1 ≤ 4 ∧ 4 ≤ subnetThreadCount 20) ∧
    hostBatchSizes 1 1 9 ≠ [] ∧ subnetBatchSizes 20 ≠ [] := by
  obtain ⟨h1, h2, h3, h4⟩ := C2_batch_size_invariant 1 20 1 9 4
  exact ⟨h1 (by decide), h2 (by decide), h3 (by decide), h4 (by decide)⟩

/-- C3 (failing-input evaluation): with subnet base `192.168.100.100`
(15 characters, accepted by `main`'s `scanf("%15s")`), host `1` formats as a
17-character dotted quad, so the `snprintf` into the 16-byte `ip` buffer
truncates and the batch loop `continue`s *before* the `atomic_store`s of
`alive`/`processed` — the task keeps whatever the uninitialized allocation
held.  With nonzero garbage the host is tallied as a responder and the
global responder counter is incremented, contrary to the claim that such a
host ends unreachable (`alive = 0`), completed (`processed = 1`) and is
never counted as a responder. -/
theorem C3_format_failure_leaves_task_uninitialized :
    (subnet_worker envGarbage "192.168.100.100" 1 1 ⟨0, 0, 0⟩).tasks =
      [{ ip := "192.168.100.100", alive := 1, processed := 0 }] ∧
    (subnet_worker envGarbage "192.168.100.100" 1 1 ⟨0, 0, 0⟩).responders = 1 ∧
    (subnet_worker envGarbage "192.168.100.100" 1 1 ⟨0, 0, 0⟩).counters.total_responders = 1 := by
  decide

/-- C6 (failing-input evaluation): over range `[1, 2]` of the same 15-character
subnet base, both addresses fail to format, both tasks keep their
uninitialized `processed = 0` — yet the result-collection loop (main.c lines
199-205) still reads every task's `alive` and tallies `2` responders,
contradicting the claim that `alive` is read only after `processed` is
observably true for that task. -/
theorem C6_alive_read_without_completed :
    ((subnet_worker envGarbage "192.168.100.100" 1 2 ⟨0, 0, 0⟩).tasks.all
      (fun t => t.processed == 0)) = true ∧
    (subnet_worker envGarbage "192.168.100.100" 1 2 ⟨0, 0, 0⟩).tasks.length = 2 ∧
    (subnet_worker envGarbage "192.168.100.100" 1 2 ⟨0, 0, 0⟩).responders = 2 := by
  decide

/-- C5: the two-level batch-and-join discipline bounds concurrently in-flight
probes by `C_s × C_h`.  At any moment, at most one subnet-level batch is open;
it contains at most `b ≤ subnet_threads` coordinators (one batch member each),
and each coordinator has at most one host-level batch in flight, of size at
most `ping_threads` (the strict `pthread_join` barriers, main.c lines 187-189
and 267-269, close a batch fully before the next opens).  Hence any family of
in-flight host batches — one per coordinator of an open subnet batch — has
total size at most `subnet_threads × ping_threads`. -/
theorem C5_concurrency_bound (cores count : Nat) (b : Nat)
    (hb : b ∈ subnetBatchSizes count) (hs : List Nat) (hlen : hs.length ≤ b)
    (hmem : ∀ h ∈ hs, ∃ start fin : Int, h ∈ hostBatchSizes cores start fin) :
    hs.sum ≤ subnetThreadCount count * pingThreadCount cores := by
  have hble : b ≤ subnetThreadCount count := batchSizesAux_mem_le _ _ _ _ hb
  have hbound : ∀ h ∈ hs, h ≤ pingThreadCount cores := by
    intro h hh
    obtain ⟨s, f, hm⟩ := hmem h hh
    exact batchSizesAux_mem_le _ _ _ _ hm
  calc hs.sum ≤ hs.length * pingThreadCount cores := by
        have := List.sum_le_card_nsmul hs (pingThreadCount cores) hbound
        simpa [smul_eq_mul] using this
    _ ≤ subnetThreadCount count * pingThreadCount cores :=
        Nat.mul_le_mul_right _ (le_trans hlen hble)

/-- Witness for C5 at the claim's concrete scenario: `C_h = 4` (one core),
`C_s = 2` (two subnets), two full host batches of 4 in flight — at most
`2 × 4 = 8` probes. -/
theorem C5_concurrency_bound_witness :
    ([4, 4] : List Nat).sum ≤ subnetThreadCount 2 * pingThreadCount 1 ∧
    subnetThreadCount 2 * pingThreadCount 1 = 8 := by
  constructor
  · apply C5_concurrency_bound 1 2 2 (by decide) [4, 4] (by decide)
    intro h hh
    refine ⟨1, 4, ?_⟩
    have h4 : h = 4 := by simpa using hh
    subst h4
    decide
  · decide

/-- C9: in single-subnet mode, any host range violating
`1 ≤ start ≤ 254 ∧ 1 ≤ end ≤ 254 ∧ start ≤ end` is rejected by `main`
(main.c lines 444-453) before any scheduling: the program exits with
failure, no probe is dispatched, and the counters are untouched. -/
theorem C9_invalid_range_rejected (env : Env) (base : String) (start fin : Int)
    (c0 : Counters)
    (h : ¬(1 ≤ start ∧ start ≤ 254 ∧ 1 ≤ fin ∧ fin ≤ 254 ∧ start ≤ fin)) :
    main_single_subnet_mode env base start fin c0 =
      { ok := false, counters := c0, dispatches := 0 } := by
  unfold main_single_subnet_mode
  split
  · rfl
  · split
    · rfl
    · exfalso
      rename_i h1 h2
      push_neg at h1 h2
      exact h ⟨by omega, by omega, by omega, by omega, by omega⟩

/-- Witness for C9 at the claim's concrete invalid range `start = 10`, `end = 5`. -/
theorem C9_invalid_range_rejected_witness :
    main_single_subnet_mode envAllOk "192.168.1" 10 5 ⟨0, 0, 0⟩ =
      { ok := false, counters := ⟨0, 0, 0⟩, dispatches := 0 } :=
  C9_invalid_range_rejected envAllOk "192.168.1" 10 5 ⟨0, 0, 0⟩ (by decide)

theorem scan_subnets_parallel_hosts (env : Env) (l : List String) (c : Counters)
    (hsch : env.schedAllocOk = true)
    (hl : ∀ s ∈ l, env.subnetSpawnOk s = true ∧ env.tasksAllocOk s = true ∧
      env.threadsAllocOk s = true) :
    (scan_subnets_parallel env l c).counters.total_hosts_scanned =
      c.total_hosts_scanned + 254 * (l.length : Int) := by
  simp only [scan_subnets_parallel, hsch, if_true]
  exact runSubnetList_hosts env l c hl

/-- C4: the aggregation counters are reset to zero at campaign start (the
result does not depend on their prior value), and after a full campaign in
which every subnet scan ran to completion, `total_hosts_scanned` equals
exactly the sum of the host-range sizes (`254 − 1 + 1` each) over all subnets
scanned. -/
theorem C4_no_double_counting (env : Env) (cPrev : Counters)
    (hsch : env.schedAllocOk = true)
    (hsp : ∀ s, env.subnetSpawnOk s = true)
    (hta : ∀ s, env.tasksAllocOk s = true)
    (hth : ∀ s, env.threadsAllocOk s = true) :
    (∀ cPrev' : Counters,
      scan_all_common_private_networks_parallel env cPrev =
        scan_all_common_private_networks_parallel env cPrev') ∧
    (scan_all_common_private_networks_parallel env cPrev).total_hosts_scanned =
      (campaign_subnets.map (fun _ => ((254 : Int) - 1 + 1))).sum := by
  have hall : ∀ (l : List String), ∀ s ∈ l, env.subnetSpawnOk s = true ∧
      env.tasksAllocOk s = true ∧ env.threadsAllocOk s = true :=
    fun l s _ => ⟨hsp s, hta s, hth s⟩
  constructor
  · intro cPrev'; rfl
  · simp only [scan_all_common_private_networks_parallel]
    rw [scan_subnets_parallel_hosts env ["127.0.0"] _ hsch (hall _),
        scan_subnets_parallel_hosts env common_class_a_subnets _ hsch (hall _),
        scan_subnets_parallel_hosts env common_class_b_subnets _ hsch (hall _),
        scan_subnets_parallel_hosts env common_class_c_subnets _ hsch (hall _)]
    decide

/-- Witness for C4 at the all-success environment. -/
theorem C4_no_double_counting_witness :
    (∀ cPrev' : Counters,
      scan_all_common_private_networks_parallel envAllOk ⟨3, 7, 9⟩ =
        scan_all_common_private_networks_parallel envAllOk cPrev') ∧
    (scan_all_common_private_networks_parallel envAllOk ⟨3, 7, 9⟩).total_hosts_scanned =
      (campaign_subnets.map (fun _ => ((254 : Int) - 1 + 1))).sum :=
  C4_no_double_counting envAllOk ⟨3, 7, 9⟩ rfl (fun _ => rfl) (fun _ => rfl) (fun _ => rfl)

/-- C7: with everything the OS supplies held fixed and deterministic (the
`Env` oracles, in particular a deterministic probe stub), the final counters
of a campaign phase are independent of the order in which the subnet scans
complete and commit their `atomic_fetch_add`s: any permutation of the subnet
completion order yields identical `total_hosts_scanned`, `total_responders`
and `subnets_scanned` — no update is lost. -/
theorem C7_deterministic_aggregation (env : Env) (l1 l2 : List String)
    (c0 : Counters) (hperm : l1.Perm l2) (hsch : env.schedAllocOk = true)
    (hsp : ∀ s, env.subnetSpawnOk s = true) :
    (scan_subnets_parallel env l1 c0).counters =
      (scan_subnets_parallel env l2 c0).counters := by
  simp only [scan_subnets_parallel, hsch, if_true]
  rw [runSubnetList_eq_foldl env l1 c0 (fun s _ => hsp s),
      runSubnetList_eq_foldl env l2 c0 (fun s _ => hsp s)]
  exact foldl_subnetCounterStep_perm env hperm c0

/-- Witness for C7: the quick-scan pair in the two possible completion orders. -/
theorem C7_deterministic_aggregation_witness :
    (scan_subnets_parallel envAllOk ["10.0.0", "192.168.1"] ⟨0, 0, 0⟩).counters =
      (scan_subnets_parallel envAllOk ["192.168.1", "10.0.0"] ⟨0, 0, 0⟩).counters :=
  C7_deterministic_aggregation envAllOk ["10.0.0", "192.168.1"]
    ["192.168.1", "10.0.0"] ⟨0, 0, 0⟩ (List.Perm.swap "192.168.1" "10.0.0" [])
    rfl (fun _ => rfl)

/-- C8 as amended: on a completed run, `subnet_worker` stores to its task's
`responders` field exactly once, at the end, with the final responder tally —
but `scan_subnets_parallel` never reads that field back (its post-join code,
main.c lines 266-272, only prints a progress line; aggregation flows through
the global atomic counters instead). -/
theorem C8_responders_field_write_once (env : Env) (s : String) (c0 : Counters)
    (hta : env.tasksAllocOk s = true) (hth : env.threadsAllocOk s = true)
    (subnets : List String) (c1 : Counters) :
    (subnet_worker env s 1 254 c0).responderFieldWrites = 1 ∧
    (subnet_worker env s 1 254 c0).respondersField =
      ((subnet_worker env s 1 254 c0).responders : Int) ∧
    (scan_subnets_parallel env subnets c1).responderFieldReads = 0 := by
  refine ⟨?_, ?_, ?_⟩
  · simp [subnet_worker, hta, hth]
  · simp [subnet_worker, hta, hth]
  · unfold scan_subnets_parallel
    split <;> rfl

/-- Witness for C8's amended statement. -/
theorem C8_responders_field_write_once_witness :
    (subnet_worker envAllOk "10.0.0" 1 254 ⟨0, 0, 0⟩).responderFieldWrites = 1 ∧
    (subnet_worker envAllOk "10.0.0" 1 254 ⟨0, 0, 0⟩).respondersField =
      ((subnet_worker envAllOk "10.0.0" 1 254 ⟨0, 0, 0⟩).responders : Int) ∧
    (scan_subnets_parallel envAllOk ["192.168.1"] ⟨0, 0, 0⟩).responderFieldReads = 0 :=
  C8_responders_field_write_once envAllOk "10.0.0" ⟨0, 0, 0⟩ rfl rfl
    ["192.168.1"] ⟨0, 0, 0⟩

/-- C8 counterexample to the claim as stated: in a concrete run of the subnet
batch scheduler, the number of reads it performs of the subnet task's
responder-count field is `0`, not the claimed exactly `1` — the field is
write-only; aggregation uses the global counters. -/
theorem C8_responders_field_read_counterexample :
    ¬((scan_subnets_parallel envAllOk ["10.0.0"] ⟨0, 0, 0⟩).responderFieldReads = 1) := by
  intro h
  have h0 : (scan_subnets_parallel envAllOk ["10.0.0"] ⟨0, 0, 0⟩).responderFieldReads = 0 := rfl
  omega
